import Mathlib

/-
A shallow embedding of the compilation-session layer of `src/compiler.go`
(package yara).  Pure Go functions become Lean functions; the engine
(libyara, an external collaborator) is modelled by explicit behaviour
records describing what the engine does during one call; the global
mutable pointer `currentCompiler` and the native calls made by the code
are recorded in an explicit event trace.
-/

set_option autoImplicit false
set_option maxRecDepth 4000

namespace Yara

/-- Engine diagnostic severity for errors, from the engine's public header
(`YARA_ERROR_LEVEL_ERROR`). -/
def YARA_ERROR_LEVEL_ERROR : Int := 0

/-- Engine diagnostic severity for warnings, from the engine's public header
(`YARA_ERROR_LEVEL_WARNING`). -/
def YARA_ERROR_LEVEL_WARNING : Int := 1

/-- Engine status code for success (`ERROR_SUCCESS`). -/
def ERROR_SUCCESS : Int := 0

/-- `CompilerMessage` of `src/compiler.go` (lines 54-58): an error or
warning produced while compiling rules. -/
structure CompilerMessage where
  Filename : String
  Line : Int
  Text : String
deriving DecidableEq

/-- `Compiler` of `src/compiler.go` (lines 46-50): the native context
handle (modelled as an optional numeric handle, `nil` = `none`) plus the
accumulated diagnostics. -/
structure Compiler where
  c : Option Nat
  Errors : List CompilerMessage
  Warnings : List CompilerMessage
deriving DecidableEq

/-- `Rules` handle as constructed by `GetRules` (line 147): an opaque
native ruleset pointer. -/
structure Rules where
  r : Option Nat
deriving DecidableEq

/-- One diagnostic event as delivered by the engine to the registered
global callback: severity level, file name, line number and message. -/
structure Diag where
  errorLevel : Int
  filename : String
  line : Int
  message : String
deriving DecidableEq

/-- The `CompilerMessage` a diagnostic event is converted to by the
callback (lines 26-30). -/
def Diag.toMsg (d : Diag) : CompilerMessage :=
  { Filename := d.filename, Line := d.line, Text := d.message }

/-- `compilerCallback` of `src/compiler.go` (lines 22-37).  The Go code
reads through the global pointer `currentCompiler` and mutates the
compiler it points to; here the pointed-to compiler is passed in as an
`Option Compiler` and the (possibly updated) target is returned.  A `nil`
current compiler drops the event; otherwise the message is appended to
`Errors` or `Warnings` by severity, and any other severity is ignored. -/
def compilerCallback (errorLevel : Int) (filename : String) (linenumber : Int)
    (message : String) (currentCompiler : Option Compiler) : Option Compiler :=
  match currentCompiler with
  | none => none
  | some cc =>
    let msg : CompilerMessage :=
      { Filename := filename, Line := linenumber, Text := message }
    if errorLevel = YARA_ERROR_LEVEL_ERROR then
      some { cc with Errors := cc.Errors ++ [msg] }
    else if errorLevel = YARA_ERROR_LEVEL_WARNING then
      some { cc with Warnings := cc.Warnings ++ [msg] }
    else
      some cc

/-- Delivery of one diagnostic event while `currentCompiler` points at
session `c` (as it does for the whole duration of the engine's add-source
call, lines 88-89 and 107-108): the callback runs with a non-nil current
compiler and the updated session is read back.  The `none` fallback is
unreachable because the callback never clears a non-nil pointer. -/
def deliverEvent (c : Compiler) (d : Diag) : Compiler :=
  match compilerCallback d.errorLevel d.filename d.line d.message (some c) with
  | some c2 => c2
  | none => c

/-- The observable actions of the session layer: assignments to the global
`currentCompiler` slot (sessions denoted by numeric id) and the native
engine calls made by `src/compiler.go`. -/
inductive Ev where
  | assignCurrent (target : Option Nat)
  | engineAddString (rules : String) (ns : Option String) (numErrors : Nat)
  | engineAddFile (fileName : String) (ns : Option String) (numErrors : Nat)
  | engineGetErrorMessage (capacity : Nat)
  | engineDefineBool (name : String) (v : Int)
  | engineDefineInt (name : String) (v : Int)
  | engineDefineStr (name : String) (v : String)
  | engineDestroyCompiler (h : Option Nat)
  | engineDestroyRules (h : Option Nat)
deriving DecidableEq

/-- Modelled from the spec: the repository's `newError` helper lives in
`error.go`, which is not under `src/`; per its documented behaviour it
maps the engine status `ERROR_SUCCESS` to no error and any other status
code to an engine error value. -/
def newError (code : Int) : Option String :=
  if code = ERROR_SUCCESS then none else some ("yara: engine error " ++ toString code)

/-- `NewCompiler` of `src/compiler.go` (lines 61-73): asks the engine to
create a context and, when that succeeds, wraps it in a fresh `Compiler`
with empty diagnostic lists.  `createStatus` is the engine's return code
and `handle` the context handle it produced. -/
def NewCompiler (createStatus : Int) (handle : Nat) : Option Compiler × Option String :=
  match newError createStatus with
  | none => (some { c := some handle, Errors := [], Warnings := [] }, none)
  | some e => (none, some e)

/-- The engine's behaviour during one add-source call: the diagnostic
events it raises synchronously through the registered callback, the error
count it returns, the bytes it leaves in the caller's 1024-unit message
buffer, and the memory adjacent past that buffer (read only if the scan
for a terminator runs past the buffer). -/
structure EngineAddBehavior where
  diags : List Diag
  numErrors : Nat
  buffer : List Char
  beyond : List Char

/-- The capacity of the stack message buffer `var buf [1024]C.char`
declared in `AddString` (line 111) and `AddFile` (line 92), which is also
the capacity argument passed to `yr_compiler_get_error_message`. -/
def errorBufferCapacity : Nat := 1024

/-- `C.GoString`: reads characters up to the first NUL.  This is how the
return value of `yr_compiler_get_error_message` is turned into a Go
string (lines 93-94 and 112-113). -/
def cGoStr : List Char → List Char
  | [] => []
  | ch :: rest => if ch = Char.ofNat 0 then [] else ch :: cGoStr rest

/-- The string read back from the message buffer after the engine wrote
into it: a NUL-terminated scan starting at the buffer, continuing into
adjacent memory if the engine left no terminator within the buffer's
1024 units. -/
def readBackErrorMessage (buffer beyond : List Char) : List Char :=
  cGoStr (buffer.take errorBufferCapacity ++ beyond)

/-- `AddString` of `src/compiler.go` (lines 102-117).  Sets
`currentCompiler` to the session, invokes the engine's
`yr_compiler_add_string` (during which the engine's diagnostics flow into
the session through the callback), and on a positive error count
retrieves the formatted message through the 1024-unit buffer; the
deferred assignment clears `currentCompiler` on every exit path.
Returns (error result, updated session, event trace). -/
def AddString (eng : EngineAddBehavior) (sid : Nat) (c : Compiler)
    (rules ns : String) : Option String × Compiler × List Ev :=
  let nsPtr : Option String := if ns = "" then none else some ns
  let cAfter : Compiler := eng.diags.foldl deliverEvent c
  if 0 < eng.numErrors then
    (some (String.mk (readBackErrorMessage eng.buffer eng.beyond)), cAfter,
      [Ev.assignCurrent (some sid),
       Ev.engineAddString rules nsPtr eng.numErrors,
       Ev.engineGetErrorMessage errorBufferCapacity,
       Ev.assignCurrent none])
  else
    (none, cAfter,
      [Ev.assignCurrent (some sid),
       Ev.engineAddString rules nsPtr eng.numErrors,
       Ev.assignCurrent none])

/-- `AddFile` of `src/compiler.go` (lines 77-98).  `fdopenError` models
the `C.fdopen` errno result (line 78): when it is `some`, the function
returns that error before touching `currentCompiler` or the engine.
Otherwise the shape is the same as `AddString` with the engine's
`yr_compiler_add_file`. -/
def AddFile (fdopenError : Option String) (eng : EngineAddBehavior) (sid : Nat)
    (c : Compiler) (fileName ns : String) : Option String × Compiler × List Ev :=
  match fdopenError with
  | some e => (some e, c, [])
  | none =>
    let nsPtr : Option String := if ns = "" then none else some ns
    let cAfter : Compiler := eng.diags.foldl deliverEvent c
    if 0 < eng.numErrors then
      (some (String.mk (readBackErrorMessage eng.buffer eng.beyond)), cAfter,
        [Ev.assignCurrent (some sid),
         Ev.engineAddFile fileName nsPtr eng.numErrors,
         Ev.engineGetErrorMessage errorBufferCapacity,
         Ev.assignCurrent none])
    else
      (none, cAfter,
        [Ev.assignCurrent (some sid),
         Ev.engineAddFile fileName nsPtr eng.numErrors,
         Ev.assignCurrent none])

/-- The runtime kind of the `interface\x7b\x7d` value handed to
`DefineVariable`: the three supported kinds, or any other runtime type
(described by a string). -/
inductive Value where
  | bool (b : Bool)
  | int64 (i : Int)
  | str (s : String)
  | other (kind : String)
deriving DecidableEq

/-- The exact error text of `DefineVariable`'s default branch
(line 137). -/
def wrongTypeMessage : String :=
  "wrong value type passed to DefineVariable; bool, int64, string are accepted."

/-- `DefineVariable` of `src/compiler.go` (lines 121-140): dispatches on
the runtime type of `value`; the three supported kinds are forwarded to
the engine (whose status for this call is `engineStatus`), anything else
returns the wrong-type error without any native call. -/
def DefineVariable (engineStatus : Int) (c : Compiler) (name : String)
    (value : Value) : Option String × Compiler × List Ev :=
  match value with
  | .bool b =>
    let v : Int := if b then 1 else 0
    (newError engineStatus, c, [Ev.engineDefineBool name v])
  | .int64 i => (newError engineStatus, c, [Ev.engineDefineInt name i])
  | .str s => (newError engineStatus, c, [Ev.engineDefineStr name s])
  | .other _ => (some wrongTypeMessage, c, [])

/-- `GetRules` of `src/compiler.go` (lines 143-154): asks the engine for
the compiled ruleset (`getStatus` is the engine's return code,
`rulesHandle` the ruleset it produced) and wraps the handle in a `Rules`
value exactly when the engine reports success.  The session itself is
returned unchanged (the Go method reads nothing but the context pointer
and writes no field). -/
def GetRules (getStatus : Int) (rulesHandle : Nat) (c : Compiler) :
    Option Rules × Option String × Compiler :=
  match newError getStatus with
  | none => (some { r := some rulesHandle }, none, c)
  | some e => (none, some e, c)

/-- The engine's behaviour over a whole one-shot `Compile` run: context
creation, the status the engine gives each variable definition, the
behaviour of the single add-source call, and materialization. -/
structure EngineBehavior where
  createStatus : Int
  compilerHandle : Nat
  defineStatus : String → Value → Int
  add : EngineAddBehavior
  getStatus : Int
  rulesHandle : Nat

/-- The variable-definition loop of `Compile` (lines 163-167): defines
each binding in iteration order, stopping at the first error. -/
def defineLoop (ds : String → Value → Int) :
    Compiler → List (String × Value) → Option String × Compiler
  | c, [] => (none, c)
  | c, (k, v) :: rest =>
    let r := DefineVariable (ds k v) c k v
    match r.1 with
    | some e => (some e, r.2.1)
    | none => defineLoop ds r.2.1 rest

/-- `Compile` of `src/compiler.go` (lines 158-173): the one-shot helper.
The Go map of variables is modelled as an association list in iteration
order. -/
def Compile (eng : EngineBehavior) (rules : String)
    (vars : List (String × Value)) : Option Rules × Option String :=
  match NewCompiler eng.createStatus eng.compilerHandle with
  | (none, e) => (none, e)
  | (some c, _) =>
    match defineLoop eng.defineStatus c vars with
    | (some e, _) => (none, some e)
    | (none, c1) =>
      let a := AddString eng.add eng.compilerHandle c1 rules ""
      match a.1 with
      | some e => (none, some e)
      | none =>
        let g := GetRules eng.getStatus eng.rulesHandle a.2.1
        (g.1, g.2.1)

/-- The first error produced by binding the variables one at a time
against session `c` (a `DefineVariable` call leaves the session
unchanged, so each bind sees the same session). -/
def firstBindError (ds : String → Value → Int) (c : Compiler)
    (vars : List (String × Value)) : Option String :=
  vars.findSome? (fun kv => (DefineVariable (ds kv.1 kv.2) c kv.1 kv.2).1)

/-- The sequential composition the spec describes for the one-shot
`compile` (spec section 6): "creates a session, binds all variables, adds
one source to the default namespace, and materializes", propagating the
first error of any step. -/
def compileSpec (eng : EngineBehavior) (source : String)
    (vars : List (String × Value)) : Except String Rules :=
  match NewCompiler eng.createStatus eng.compilerHandle with
  | (none, e) => .error (e.getD "")
  | (some session, _) =>
    match firstBindError eng.defineStatus session vars with
    | some e => .error e
    | none =>
      let added := AddString eng.add eng.compilerHandle session source ""
      match added.1 with
      | some e => .error e
      | none =>
        match GetRules eng.getStatus eng.rulesHandle added.2.1 with
        | (some r, _, _) => .ok r
        | (none, e, _) => .error (e.getD "")

/-- The finalizer installed on a `Compiler` by `NewCompiler`
(lines 67-70): destroys the native context currently held in the `c`
field and sets the field to nil. -/
def compilerFinalizer (c : Compiler) : Compiler × List Ev :=
  ({ c with c := none }, [Ev.engineDestroyCompiler c.c])

/-- The finalizer installed on a `Rules` value by `GetRules`
(lines 148-151): destroys the native ruleset currently held in the `r`
field and sets the field to nil. -/
def rulesFinalizer (rs : Rules) : Rules × List Ev :=
  ({ r := none }, [Ev.engineDestroyRules rs.r])

/-- The native handles actually released by a trace of events: the
non-nil arguments of the engine's destroy calls. -/
def handlesReleased (es : List Ev) : List Nat :=
  es.filterMap (fun e =>
    match e with
    | Ev.engineDestroyCompiler (some h) => some h
    | Ev.engineDestroyRules (some h) => some h
    | _ => none)

/-- The value of the global `currentCompiler` slot after a trace of
events, starting from `init`. -/
def runCurrent (init : Option Nat) (es : List Ev) : Option Nat :=
  es.foldl (fun cur e =>
    match e with
    | Ev.assignCurrent v => v
    | _ => cur) init

/-- Whether an event is the engine's add-source primitive. -/
def isEngineAdd : Ev → Bool
  | Ev.engineAddString _ _ _ => true
  | Ev.engineAddFile _ _ _ => true
  | _ => false

/-- The value the global `currentCompiler` slot holds at the moment the
engine's add-source primitive runs (`none` if the trace contains no such
call). -/
def currentAtEngineAdd : Option Nat → List Ev → Option (Option Nat)
  | _, [] => none
  | _, Ev.assignCurrent v :: rest => currentAtEngineAdd v rest
  | cur, e :: rest =>
    if isEngineAdd e then some cur else currentAtEngineAdd cur rest

/-- A sample engine behaviour for one failing add-source call: one error,
and a message the engine NUL-terminated inside the buffer. -/
def engW : EngineAddBehavior :=
  { diags := [], numErrors := 1,
    buffer := ['o', 'k', Char.ofNat 0], beyond := ['Z'] }

/-- A sample open session holding a live native context. -/
def cW : Compiler := { c := some 1, Errors := [], Warnings := [] }

end Yara

namespace Yara

/- Helper lemmas -/

theorem warn_ne_err : ¬ YARA_ERROR_LEVEL_WARNING = YARA_ERROR_LEVEL_ERROR := by decide

theorem err_ne_warn : ¬ YARA_ERROR_LEVEL_ERROR = YARA_ERROR_LEVEL_WARNING := by decide

theorem deliverEvent_eq (c : Compiler) (d : Diag) :
    deliverEvent c d =
      if d.errorLevel = YARA_ERROR_LEVEL_ERROR then
        { c with Errors := c.Errors ++ [d.toMsg] }
      else if d.errorLevel = YARA_ERROR_LEVEL_WARNING then
        { c with Warnings := c.Warnings ++ [d.toMsg] }
      else c := by
  unfold deliverEvent compilerCallback
  by_cases h0 : d.errorLevel = YARA_ERROR_LEVEL_ERROR <;>
    by_cases h1 : d.errorLevel = YARA_ERROR_LEVEL_WARNING <;>
    simp [h0, h1, Diag.toMsg, warn_ne_err]

theorem foldl_deliverEvent_Errors (ds : List Diag) (c : Compiler) :
    (ds.foldl deliverEvent c).Errors
      = c.Errors
        ++ (ds.filter
              (fun d => decide (d.errorLevel = YARA_ERROR_LEVEL_ERROR))).map Diag.toMsg := by
  induction ds generalizing c with
  | nil => simp
  | cons d rest ih =>
    rw [List.foldl_cons, ih, deliverEvent_eq]
    by_cases h0 : d.errorLevel = YARA_ERROR_LEVEL_ERROR
    · simp [h0, List.filter_cons, warn_ne_err]
    · by_cases h1 : d.errorLevel = YARA_ERROR_LEVEL_WARNING <;>
        simp [h0, h1, List.filter_cons, warn_ne_err]

theorem foldl_deliverEvent_Warnings (ds : List Diag) (c : Compiler) :
    (ds.foldl deliverEvent c).Warnings
      = c.Warnings
        ++ (ds.filter
              (fun d => decide (d.errorLevel = YARA_ERROR_LEVEL_WARNING))).map Diag.toMsg := by
  induction ds generalizing c with
  | nil => simp
  | cons d rest ih =>
    rw [List.foldl_cons, ih, deliverEvent_eq]
    by_cases h0 : d.errorLevel = YARA_ERROR_LEVEL_ERROR
    · have h1 : ¬ d.errorLevel = YARA_ERROR_LEVEL_WARNING := by
        rw [h0]; exact err_ne_warn
      simp [h0, h1, List.filter_cons, err_ne_warn]
    · by_cases h1 : d.errorLevel = YARA_ERROR_LEVEL_WARNING <;>
        simp [h0, h1, List.filter_cons, err_ne_warn, warn_ne_err]

theorem getRules_session_unchanged (s : Int) (h : Nat) (c : Compiler) :
    (GetRules s h c).2.2 = c := by
  cases hn : newError s <;> simp [GetRules, hn]

theorem defineVariable_session (st : Int) (c : Compiler) (k : String) (v : Value) :
    (DefineVariable st c k v).2.1 = c := by
  cases v <;> rfl

/- Claim theorems -/

/-- Claim C4 (confirmed): every diagnostic event delivered to the global
callback is appended, in emission order, to the current session's
`Errors` list when its severity is `YARA_ERROR_LEVEL_ERROR` and to its
`Warnings` list when the severity is `YARA_ERROR_LEVEL_WARNING`; when no
session is active (`currentCompiler` is nil) the event is dropped and no
session changes.  The last two conjuncts state order preservation over a
whole stream of events delivered while one session is active. -/
theorem compilerCallback_routing (f m : String) (ln lvl : Int) (c : Compiler)
    (ds : List Diag) :
    compilerCallback lvl f ln m none = none
    ∧ compilerCallback YARA_ERROR_LEVEL_ERROR f ln m (some c)
        = some { c with Errors := c.Errors ++ [{ Filename := f, Line := ln, Text := m }] }
    ∧ compilerCallback YARA_ERROR_LEVEL_WARNING f ln m (some c)
        = some { c with Warnings := c.Warnings ++ [{ Filename := f, Line := ln, Text := m }] }
    ∧ (ds.foldl deliverEvent c).Errors
        = c.Errors
          ++ (ds.filter
                (fun d => decide (d.errorLevel = YARA_ERROR_LEVEL_ERROR))).map Diag.toMsg
    ∧ (ds.foldl deliverEvent c).Warnings
        = c.Warnings
          ++ (ds.filter
                (fun d => decide (d.errorLevel = YARA_ERROR_LEVEL_WARNING))).map Diag.toMsg := by
  refine ⟨rfl, ?_, ?_, foldl_deliverEvent_Errors ds c, foldl_deliverEvent_Warnings ds c⟩
  · simp [compilerCallback, YARA_ERROR_LEVEL_ERROR]
  · simp [compilerCallback, YARA_ERROR_LEVEL_ERROR, YARA_ERROR_LEVEL_WARNING]

/-- Claim C5 (confirmed): `DefineVariable` with a value of any runtime
type outside bool/int64/string returns the wrong-type error, performs no
engine call (empty event trace) and leaves the session — in particular
its `Errors` and `Warnings` lists — unchanged. -/
theorem defineVariable_unsupported (st : Int) (c : Compiler) (name kind : String) :
    DefineVariable st c name (Value.other kind) = (some wrongTypeMessage, c, []) := rfl

/-- Claim C8 (confirmed): running the `Compiler` finalizer (resp. the
`Rules` finalizer) a second time is a no-op: the value is unchanged and
no native handle is released, because the first run cleared the handle
field; the first run releases exactly the handle the value held. -/
theorem finalizer_second_run_noop (c : Compiler) (rs : Rules) :
    (compilerFinalizer (compilerFinalizer c).1).1 = (compilerFinalizer c).1
    ∧ handlesReleased (compilerFinalizer (compilerFinalizer c).1).2 = []
    ∧ handlesReleased (compilerFinalizer c).2 = c.c.toList
    ∧ (rulesFinalizer (rulesFinalizer rs).1).1 = (rulesFinalizer rs).1
    ∧ handlesReleased (rulesFinalizer (rulesFinalizer rs).1).2 = []
    ∧ handlesReleased (rulesFinalizer rs).2 = rs.r.toList := by
  refine ⟨rfl, rfl, ?_, rfl, rfl, ?_⟩
  · cases hc : c.c <;> simp [compilerFinalizer, handlesReleased, hc]
  · cases hr : rs.r <;> simp [rulesFinalizer, handlesReleased, hr]

/-- Claim C10 (confirmed): an add-source call that reaches the engine
returns a nil error exactly when the engine reports a zero error count
for that call; the result is independent of the session's previously
accumulated diagnostics (third conjunct) and of the diagnostics the
engine emits during the call (fourth conjunct). -/
theorem add_result_nil_iff_zero_count (eng : EngineAddBehavior) (sid sid2 : Nat)
    (c c2 : Compiler) (r n f : String) (ds2 : List Diag) :
    ((AddString eng sid c r n).1 = none ↔ eng.numErrors = 0)
    ∧ ((AddFile none eng sid c f n).1 = none ↔ eng.numErrors = 0)
    ∧ (AddString eng sid c r n).1 = (AddString eng sid2 c2 r n).1
    ∧ (AddString
        { diags := ds2, numErrors := eng.numErrors,
          buffer := eng.buffer, beyond := eng.beyond } sid c r n).1
        = (AddString eng sid c r n).1 := by
  refine ⟨?_, ?_, ?_, ?_⟩ <;>
    by_cases h : 0 < eng.numErrors <;>
      simp [AddString, AddFile, h] <;> omega


/-- Claim C3 (amended, corrected from the original): diagnostics
delivered through the callback during `AddString` are accumulated in the
session regardless of the error count (first conjunct), and they never by
themselves determine the call's result; however the call does not return
the error count and a nonzero count is not silent: `AddString` returns a
non-nil error — carrying the engine's formatted message — exactly when
the engine reports a nonzero error count for this call (second and third
conjuncts). -/
theorem addString_accumulates_and_fails_on_count (eng : EngineAddBehavior)
    (sid : Nat) (c : Compiler) (r n : String) :
    (AddString eng sid c r n).2.1 = eng.diags.foldl deliverEvent c
    ∧ ((AddString eng sid c r n).1 = none ↔ eng.numErrors = 0)
    ∧ (AddString eng sid c r n).1
        = (if 0 < eng.numErrors
            then some (String.mk (readBackErrorMessage eng.buffer eng.beyond))
            else none) := by
  refine ⟨?_, ?_, ?_⟩ <;>
    by_cases h : 0 < eng.numErrors <;> simp [AddString, h] <;> omega

/-- Claim C3 counterexample: an `AddString` call for which the engine
reports error count 1 returns a non-nil error (the engine's formatted
message), contradicting the claim that a nonzero count does not produce
a failure of the add call itself and that diagnostics are surfaced only
at materialize time. -/
theorem addString_nonzero_count_fails_cex :
    (AddString
      { diags := [], numErrors := 1,
        buffer := ['e', 'r', 'r', Char.ofNat 0], beyond := [] } 1
      { c := some 1, Errors := [], Warnings := [] } "r1" "").1 = some "err" := by
  decide

/-- Claim C1 (amended, corrected from the original): `GetRules` forwards
the engine's materialize result without consulting the session's
accumulated diagnostics: a `Rules` value is constructed exactly when the
engine reports success (first conjunct), the returned error is the
engine's status error, which is independent of the session and so
carries none of the accumulated diagnostics (second conjunct), and the
session is left unchanged with its diagnostics readable only from its
own fields (third conjunct). -/
theorem getRules_engine_status (s : Int) (h : Nat) (c : Compiler) :
    ((GetRules s h c).1 ≠ none ↔ newError s = none)
    ∧ (GetRules s h c).2.1 = newError s
    ∧ (GetRules s h c).2.2 = c := by
  cases hn : newError s <;> simp [GetRules, hn]

/-- Claim C1 counterexample: on a session holding one recorded `Error`
diagnostic, `GetRules` with an engine success status still constructs and
returns a `Rules` value (first and second conjuncts), and when the engine
fails, the error returned is identical whether or not the session has
accumulated diagnostics, so it cannot carry the diagnostic set (third
conjunct). -/
theorem getRules_ignores_errors_cex :
    (GetRules 0 7
      { c := some 1,
        Errors := [{ Filename := "a.yar", Line := 3, Text := "boom" }],
        Warnings := [] }).1 = some { r := some 7 }
    ∧ ({ c := some 1,
         Errors := [{ Filename := "a.yar", Line := 3, Text := "boom" }],
         Warnings := [] } : Compiler).Errors ≠ []
    ∧ (GetRules 1 7
        { c := some 1,
          Errors := [{ Filename := "a.yar", Line := 3, Text := "boom" }],
          Warnings := [] }).2.1
      = (GetRules 1 7 { c := some 1, Errors := [], Warnings := [] }).2.1 := by
  refine ⟨rfl, by decide, rfl⟩

/-- Claim C2 (amended, corrected from the original): the session keeps no
Open/Finalized state and has no `InvalidState` rejection: `GetRules`
leaves the session unchanged, so a subsequent `AddString` or
`DefineVariable` behaves exactly as on a session that never materialized
(first two conjuncts), and an `AddString` after `GetRules` is always
forwarded to the engine's add-source primitive (third conjunct). -/
theorem session_stateless_after_getRules (s st : Int) (h sid : Nat)
    (eng : EngineAddBehavior) (c : Compiler) (r n name : String) (v : Value) :
    AddString eng sid (GetRules s h c).2.2 r n = AddString eng sid c r n
    ∧ DefineVariable st (GetRules s h c).2.2 name v = DefineVariable st c name v
    ∧ Ev.engineAddString r (if n = "" then none else some n) eng.numErrors
        ∈ (AddString eng sid (GetRules s h c).2.2 r n).2.2 := by
  rw [getRules_session_unchanged]
  refine ⟨rfl, rfl, ?_⟩
  by_cases hh : 0 < eng.numErrors <;> simp [AddString, hh]

/-- Claim C2 counterexample: after a successful `GetRules` (the state the
claim calls Finalized), a further `AddString` on the same session is not
rejected with any error: it returns nil (per the engine's zero error
count for that call) and its trace shows the engine's add-source
primitive being invoked, so the call was forwarded to the engine rather
than refused with `InvalidState`. -/
theorem addString_after_finalize_cex :
    (GetRules 0 7 { c := some 1, Errors := [], Warnings := [] }).1 ≠ none
    ∧ (AddString { diags := [], numErrors := 0, buffer := [], beyond := [] } 1
        (GetRules 0 7 { c := some 1, Errors := [], Warnings := [] }).2.2
        "r1" "").1 = none
    ∧ Ev.engineAddString "r1" none 0
        ∈ (AddString { diags := [], numErrors := 0, buffer := [], beyond := [] } 1
            (GetRules 0 7 { c := some 1, Errors := [], Warnings := [] }).2.2
            "r1" "").2.2 := by
  decide

/-- Claim C6 (confirmed): for every `AddString` call and every `AddFile`
call that reaches the engine, the global `currentCompiler` slot holds the
calling session exactly when the engine's add-source primitive runs
(second and fourth conjuncts) and is cleared on every exit path — whatever
it held before, it is nil after the call returns (first and third
conjuncts); on `AddFile`'s early error return, which happens before
activation, the slot stays nil (fifth conjunct), so outside an
in-progress add call no session is the routing target. -/
theorem relay_scoped_activation (eng : EngineAddBehavior) (sid : Nat)
    (c : Compiler) (r n f e : String) (init : Option Nat) :
    runCurrent init (AddString eng sid c r n).2.2 = none
    ∧ currentAtEngineAdd init (AddString eng sid c r n).2.2 = some (some sid)
    ∧ runCurrent init (AddFile none eng sid c f n).2.2 = none
    ∧ currentAtEngineAdd init (AddFile none eng sid c f n).2.2 = some (some sid)
    ∧ runCurrent none (AddFile (some e) eng sid c f n).2.2 = none := by
  refine ⟨?_, ?_, ?_, ?_, rfl⟩ <;>
    by_cases h : 0 < eng.numErrors <;>
      simp [AddString, AddFile, h, runCurrent, currentAtEngineAdd, isEngineAdd]


theorem cGoStr_length_le_of_mem (xs ys : List Char)
    (h : Char.ofNat 0 ∈ xs) : (cGoStr (xs ++ ys)).length ≤ xs.length := by
  induction xs with
  | nil => simp at h
  | cons a rest ih =>
    by_cases ha : a = Char.ofNat 0
    · simp [cGoStr, ha]
    · have hm : Char.ofNat 0 ∈ rest := by
        rcases List.mem_cons.mp h with h1 | h1
        · exact absurd h1.symm ha
        · exact h1
      have := ih hm
      simp only [List.cons_append, cGoStr, if_neg ha, List.length_cons,
        List.append_eq]
      omega

theorem cGoStr_replicate (n : Nat) (ch : Char) (hch : ¬ ch = Char.ofNat 0)
    (ys : List Char) :
    cGoStr (List.replicate n ch ++ ys) = List.replicate n ch ++ cGoStr ys := by
  induction n with
  | zero => simp
  | succ k ih => simp [List.replicate_succ, cGoStr, hch, ih]

/-- Claim C9 (amended, corrected from the original): the message buffer
has capacity exactly 1024 units and that capacity is what `AddString`
passes to the engine's get-error-message call (second conjunct); the
message is read back with a NUL-scanning read that the session layer does
not truncate: whenever the engine NUL-terminates within the buffer's
1024 units, the message read back is bounded by the capacity (first
conjunct) — but the boundedness comes from the terminator, not from a
defensive truncation (see the counterexample). -/
theorem errorMessage_bounded_when_terminated (eng : EngineAddBehavior)
    (sid : Nat) (c : Compiler) (r n : String)
    (h : Char.ofNat 0 ∈ eng.buffer.take errorBufferCapacity) :
    ((AddString eng sid c r n).1.getD "").length ≤ errorBufferCapacity
    ∧ ((AddString eng sid c r n).1 = none
        ∨ Ev.engineGetErrorMessage errorBufferCapacity
            ∈ (AddString eng sid c r n).2.2) := by
  by_cases hn : 0 < eng.numErrors
  · constructor
    · have h1 := cGoStr_length_le_of_mem (eng.buffer.take errorBufferCapacity)
        eng.beyond h
      have h2 : (eng.buffer.take errorBufferCapacity).length ≤ errorBufferCapacity := by
        simp [List.length_take]
      simp only [AddString, if_pos hn, Option.getD_some]
      show (readBackErrorMessage eng.buffer eng.beyond).length ≤ errorBufferCapacity
      rw [readBackErrorMessage]
      omega
    · right
      simp [AddString, hn]
  · constructor
    · simp [AddString, hn]
    · left
      simp [AddString, hn]

theorem errorMessage_bounded_when_terminated_witness :
    ((AddString engW 1 cW "r1" "").1.getD "").length ≤ errorBufferCapacity
    ∧ ((AddString engW 1 cW "r1" "").1 = none
        ∨ Ev.engineGetErrorMessage errorBufferCapacity
            ∈ (AddString engW 1 cW "r1" "").2.2) :=
  errorMessage_bounded_when_terminated engW 1 cW "r1" "" (by decide)

/-- Claim C9 counterexample: when the engine leaves no NUL terminator
within the 1024-unit buffer, the message `AddString` reads back runs past
the buffer into adjacent memory and its length (1025 here) exceeds the
1024-unit capacity — the code does not truncate defensively. -/
theorem errorMessage_overread_cex :
    errorBufferCapacity <
      ((AddString
          { diags := [], numErrors := 1,
            buffer := List.replicate 1024 'a', beyond := ['Z', Char.ofNat 0] } 1
          { c := some 1, Errors := [], Warnings := [] } "r1" "").1.getD "").length := by
  have hch : ¬ 'a' = Char.ofNat 0 := by decide
  have htake : (List.replicate 1024 'a').take errorBufferCapacity
      = List.replicate 1024 'a' := by
    apply List.take_of_length_le
    simp [errorBufferCapacity]
  have hz : cGoStr ['Z', Char.ofNat 0] = ['Z'] := by decide
  have h1 : readBackErrorMessage (List.replicate 1024 'a') ['Z', Char.ofNat 0]
      = List.replicate 1024 'a' ++ ['Z'] := by
    rw [readBackErrorMessage, htake, cGoStr_replicate 1024 'a' hch, hz]
  have hpos : 0 < (1 : Nat) := by decide
  simp only [AddString, if_pos hpos, Option.getD_some]
  show errorBufferCapacity
      < (readBackErrorMessage (List.replicate 1024 'a') ['Z', Char.ofNat 0]).length
  rw [h1]
  simp [errorBufferCapacity]


theorem defineLoop_eq_firstBindError (ds : String → Value → Int) (c : Compiler)
    (vars : List (String × Value)) :
    defineLoop ds c vars = (firstBindError ds c vars, c) := by
  induction vars with
  | nil => simp [defineLoop, firstBindError]
  | cons kv rest ih =>
    obtain ⟨k, v⟩ := kv
    rw [defineLoop]
    cases hd : (DefineVariable (ds k v) c k v).1 with
    | some e =>
      simp [firstBindError, List.findSome?_cons, hd, defineVariable_session]
    | none =>
      show defineLoop ds (DefineVariable (ds k v) c k v).2.1 rest
          = (firstBindError ds c ((k, v) :: rest), c)
      rw [defineVariable_session, ih]
      simp [firstBindError, List.findSome?_cons, hd]

/-- Claim C7 (confirmed): the one-shot `Compile(source, vars)` is
equivalent to the sequential composition the spec describes — create a
session via `NewCompiler`, bind every variable of the mapping via
`DefineVariable`, add the single source to the default (empty) namespace
via `AddString`, then materialize via `GetRules` — returning the first
error any step produces and the resulting ruleset on success, for every
engine behaviour, source and variable list. -/
theorem compile_eq_session_composition (eng : EngineBehavior) (r : String)
    (vars : List (String × Value)) :
    Compile eng r vars
      = (match compileSpec eng r vars with
         | .ok rs => (some rs, none)
         | .error e => (none, some e)) := by
  unfold Compile compileSpec
  cases hn : newError eng.createStatus with
  | some e => simp [NewCompiler, hn]
  | none =>
    simp only [NewCompiler, hn]
    rw [defineLoop_eq_firstBindError]
    cases hb : firstBindError eng.defineStatus
        { c := some eng.compilerHandle, Errors := [], Warnings := [] } vars with
    | some e => simp
    | none =>
      simp only []
      cases ha : (AddString eng.add eng.compilerHandle
          { c := some eng.compilerHandle, Errors := [], Warnings := [] } r "").1 with
      | some e => simp [ha]
      | none =>
        cases hg : newError eng.getStatus with
        | none => simp [GetRules, hg, ha]
        | some e => simp [GetRules, hg, ha]

end Yara
